import Mathlib

/-!
Shallow embedding of `src/remove_system_health.py`, a one-pass line filter
over a schema file.  Lines are modelled as `String` (including their
trailing line terminator, as produced by `readlines`).  The Python `in`
substring test is modelled by `containsSub`; the loop of
`remove_system_health_components` (source lines 62-112) is modelled by
`process`, an explicit recursion over the list of remaining lines carrying
the mutable loop state (`skip_next_complaints`, `current_section_end`).
The Python variables `skipping` and `current_section_end` are always
updated together (lines 100-101 and 110-111), so the state keeps only the
`Option String`: `skipping` is `current_section_end.isSome`.

A faithfulness note on source lines 79-83: the `continue` there belongs to
the inner `for` loop over `relations_sections`, not to the `while` loop, so
after appending the replacement line and incrementing `i` the same `line`
falls through to the type-removal and section-removal checks, which
increment `i` once more.  The embedding reproduces this: in the header
branch the replacement is emitted, the remaining stages run on the same
line, and the recursion continues after dropping one extra input line.
-/

namespace RemoveSystemHealth

/-- Does `needle` occur at the start of `hay`? -/
def leadsWith : List Char → List Char → Bool
  | [], _ => true
  | _ :: _, [] => false
  | a :: as, b :: bs => a == b && leadsWith as bs

/-- Does `needle` occur anywhere in `hay`?  (Python `needle in hay`.) -/
def hasSub (needle : List Char) : List Char → Bool
  | [] => needle.isEmpty
  | b :: bs => leadsWith needle (b :: bs) || hasSub needle bs

/-- `containsSub hay pat` models Python `pat in hay` on strings. -/
def containsSub (hay pat : String) : Bool := hasSub pat.data hay.data

/-- The duplicate-guard marker checked at source lines 69 and 72. -/
def complaintsMarker : String := "complaints = pgTable"

/-- The hard-coded skip rules, source lines 13-32: (marker, block-open,
block-close) triples. -/
def skip_sections : List (String × String × String) :=
  [ ("processImpactLevelEnum", "[", ");"),
    ("processes = pgTable", "\x7b", "\x7d);"),
    ("metrics = pgTable", "\x7b", "\x7d);"),
    ("metricValues = pgTable", "\x7b", "\x7d);"),
    ("riskScores = pgTable", "\x7b", "\x7d);"),
    ("alertRules = pgTable", "\x7b", "\x7d);"),
    ("alerts = pgTable", "\x7b", "\x7d);"),
    ("alertConfigurations = pgTable", "\x7b", "\x7d);"),
    ("alertHistory = pgTable", "\x7b", "\x7d);"),
    ("healthScoreHistory = pgTable", "\x7b", "\x7d);"),
    ("insertProcessSchema =", "createInsertSchema", "\x7d);"),
    ("insertMetricSchema =", "createInsertSchema", "\x7d);"),
    ("insertMetricValueSchema =", "createInsertSchema", "\x7d);"),
    ("insertRiskScoreSchema =", "createInsertSchema", "\x7d);"),
    ("insertAlertRuleSchema =", "createInsertSchema", "\x7d);"),
    ("insertAlertSchema =", "createInsertSchema", "\x7d);"),
    ("insertAlertConfigurationSchema =", "createInsertSchema", "\x7d);"),
    ("insertHealthScoreHistorySchema =", "createInsertSchema", "\x7d);") ]

/-- The hard-coded single-line type-removal patterns, source lines 35-53. -/
def type_removals : List String :=
  [ "export type Process =",
    "export type InsertProcess =",
    "export type Metric =",
    "export type InsertMetric =",
    "export type MetricValue =",
    "export type InsertMetricValue =",
    "export type RiskScore =",
    "export type InsertRiskScore =",
    "export type AlertRule =",
    "export type InsertAlertRule =",
    "export type Alert =",
    "export type InsertAlert =",
    "export type AlertConfiguration =",
    "export type InsertAlertConfiguration =",
    "export type AlertHistoryEntry =",
    "export type HealthScoreHistoryEntry =",
    "export type InsertHealthScoreHistoryEntry =" ]

/-- The header-replacement old substring, source line 57. -/
def relationsOld : String :=
  "// Relations for Risk-Based Analysis & Process Monitoring Module"

/-- The header-replacement new text, source line 58. -/
def relationsNew : String := "// Relations for Customer Feedback & Complaints"

/-- The list `relations_sections` of the source (lines 56-59); it has
exactly one pair, and the loop at lines 79-83 is embedded for this
singleton list. -/
def relations_sections : List (String × String) := [(relationsOld, relationsNew)]

/-- The full replacement line appended at source line 81
(`f-string` adds the newline). -/
def relationsNewLine : String := relationsNew ++ "\n"

/-- The loop state: `skip_next_complaints` (source line 10) and
`current_section_end` (source line 64); `skipping` (line 63) is
`current_section_end.isSome`, since the two are always set together. -/
structure FilterState where
  skip_next_complaints : Bool
  current_section_end : Option String
  deriving DecidableEq

/-- The state at loop entry, source lines 10 and 62-64. -/
def initState : FilterState := ⟨false, none⟩

/-- Does `line` contain one of the type-removal patterns?
Source lines 86-90. -/
def isTypeRemoval (line : String) : Bool :=
  type_removals.any (fun p => containsSub line p)

/-- First rule of the list whose marker and block-open substrings are both
in `line`; returns its block-close substring.  Source lines 98-103. -/
def findRule (line : String) : List (String × String × String) → Option String
  | [] => none
  | (nm, op, cl) :: rs =>
    if containsSub line nm && containsSub line op then some cl
    else findRule line rs

/-- Stages 3-4 of the loop body (source lines 85-112): the type-removal
check followed by the section-removal state machine.  Every path through
these stages advances `i` by exactly one; the returned list is the lines
appended to `fixed_lines` (empty or the line itself) and the returned state
is the updated loop state. -/
def stage34 (s : FilterState) (line : String) : List String × FilterState :=
  if isTypeRemoval line then ([], s)
  else
    match s.current_section_end with
    | none =>
      match findRule line skip_sections with
      | some cl => ([], { s with current_section_end := some cl })
      | none => ([line], s)
    | some e =>
      if containsSub line e then ([], { s with current_section_end := none })
      else ([], s)

/-- The whole loop, source lines 65-112.  The first branch is the duplicate
guard (lines 68-76).  The second branch is the header replacement (lines
78-83): because the `continue` there binds to the inner `for` loop, the
replacement is emitted, stages 3-4 still run on the same line, and the
cursor has advanced twice, so one further input line is consumed unseen. -/
def process (s : FilterState) : List String → List String
  | [] => []
  | line :: rest =>
    if containsSub line complaintsMarker then
      if s.skip_next_complaints then process s rest
      else line :: process { s with skip_next_complaints := true } rest
    else if containsSub line relationsOld then
      relationsNewLine :: (stage34 s line).1 ++
        (match rest with
          | [] => []
          | _ :: rest2 => process (stage34 s line).2 rest2)
    else
      (stage34 s line).1 ++ process (stage34 s line).2 rest

/-- The pure core of `remove_system_health_components`: file reading and
writing are the boundary; the transformation maps the list of input lines
to the list of output lines. -/
def remove_system_health_components (lines : List String) : List String :=
  process initState lines

/-- Fuel-indexed version of the loop: one unit of fuel per iteration of the
`while` loop; `none` means the fuel ran out before the loop finished. -/
def processF (s : FilterState) : Nat → List String → Option (List String)
  | _, [] => some []
  | 0, _ :: _ => none
  | Nat.succ fuel, line :: rest =>
    if containsSub line complaintsMarker then
      if s.skip_next_complaints then processF s fuel rest
      else
        (processF { s with skip_next_complaints := true } fuel rest).map
          (fun out => line :: out)
    else if containsSub line relationsOld then
      (processF (stage34 s line).2 fuel (rest.drop 1)).map
        (fun out => relationsNewLine :: (stage34 s line).1 ++ out)
    else
      (processF (stage34 s line).2 fuel rest).map
        (fun out => (stage34 s line).1 ++ out)

/-- Does `line` match any rule of the filter: the duplicate-guard marker,
the header-replacement old substring, a type-removal pattern, or a skip
rule (marker and block-open both present)? -/
def matchesAnyRule (l : String) : Bool :=
  containsSub l complaintsMarker || containsSub l relationsOld ||
    isTypeRemoval l || (findRule l skip_sections).isSome

/-- No line containing the duplicate-guard marker stands immediately after
a line that the header-replacement branch examines (a line containing the
header old substring but not the marker).  Such a marker line would be
swallowed unexamined by the cursor double-advance of the header branch. -/
def noSwallowedMarker : List String → Bool
  | a :: b :: rest =>
    (!(containsSub a relationsOld && !(containsSub a complaintsMarker)) ||
      !(containsSub b complaintsMarker)) &&
    noSwallowedMarker (b :: rest)
  | _ => true

section Lemmas

theorem stage34_type {l : String} (s : FilterState) (h : isTypeRemoval l = true) :
    stage34 s l = ([], s) := by
  simp [stage34, h]

theorem stage34_open {l cl : String} (s : FilterState) (h : isTypeRemoval l = false)
    (hc : s.current_section_end = none) (hf : findRule l skip_sections = some cl) :
    stage34 s l = ([], { s with current_section_end := some cl }) := by
  simp [stage34, h, hc, hf]

theorem stage34_keep {l : String} (s : FilterState) (h : isTypeRemoval l = false)
    (hc : s.current_section_end = none) (hf : findRule l skip_sections = none) :
    stage34 s l = ([l], s) := by
  simp [stage34, h, hc, hf]

theorem stage34_close {l e : String} (s : FilterState) (h : isTypeRemoval l = false)
    (hc : s.current_section_end = some e) (he : containsSub l e = true) :
    stage34 s l = ([], { s with current_section_end := none }) := by
  simp [stage34, h, hc, he]

theorem stage34_within {l e : String} (s : FilterState) (h : isTypeRemoval l = false)
    (hc : s.current_section_end = some e) (he : containsSub l e = false) :
    stage34 s l = ([], s) := by
  simp [stage34, h, hc, he]

theorem stage34_fst (s : FilterState) (l : String) :
    (stage34 s l).1 = [] ∨ (stage34 s l).1 = [l] := by
  cases h : isTypeRemoval l
  · cases hc : s.current_section_end with
    | none =>
      cases hf : findRule l skip_sections with
      | none => rw [stage34_keep s h hc hf]; right; rfl
      | some cl => rw [stage34_open s h hc hf]; left; rfl
    | some e =>
      cases he : containsSub l e
      · rw [stage34_within s h hc he]; left; rfl
      · rw [stage34_close s h hc he]; left; rfl
  · rw [stage34_type s h]; left; rfl

theorem state_eta (s : FilterState) (h : s.current_section_end = none) :
    { s with current_section_end := none } = s := by
  cases s with
  | mk a b => simp only at h; simp [h]

theorem process_nil (s : FilterState) : process s [] = [] := rfl

theorem process_dup_drop {l : String} (s : FilterState) (rest : List String)
    (h : containsSub l complaintsMarker = true) (hf : s.skip_next_complaints = true) :
    process s (l :: rest) = process s rest := by
  cases rest <;> simp [process, h, hf]

theorem process_dup_keep {l : String} (s : FilterState) (rest : List String)
    (h : containsSub l complaintsMarker = true) (hf : s.skip_next_complaints = false) :
    process s (l :: rest) =
      l :: process { s with skip_next_complaints := true } rest := by
  cases rest <;> simp [process, h, hf]

theorem process_header {l : String} (s : FilterState) (rest : List String)
    (h1 : containsSub l complaintsMarker = false)
    (h2 : containsSub l relationsOld = true) :
    process s (l :: rest) =
      relationsNewLine :: (stage34 s l).1 ++ process (stage34 s l).2 (rest.drop 1) := by
  cases rest <;> simp [process, h1, h2]

theorem process_plain {l : String} (s : FilterState) (rest : List String)
    (h1 : containsSub l complaintsMarker = false)
    (h2 : containsSub l relationsOld = false) :
    process s (l :: rest) = (stage34 s l).1 ++ process (stage34 s l).2 rest := by
  cases rest <;> simp [process, h1, h2]

theorem processF_dup_drop {l : String} (s : FilterState) (n : Nat) (rest : List String)
    (h : containsSub l complaintsMarker = true) (hf : s.skip_next_complaints = true) :
    processF s (n + 1) (l :: rest) = processF s n rest := by
  simp [processF, h, hf]

theorem processF_dup_keep {l : String} (s : FilterState) (n : Nat) (rest : List String)
    (h : containsSub l complaintsMarker = true) (hf : s.skip_next_complaints = false) :
    processF s (n + 1) (l :: rest) =
      (processF { s with skip_next_complaints := true } n rest).map
        (fun out => l :: out) := by
  simp [processF, h, hf]

theorem processF_header {l : String} (s : FilterState) (n : Nat) (rest : List String)
    (h1 : containsSub l complaintsMarker = false)
    (h2 : containsSub l relationsOld = true) :
    processF s (n + 1) (l :: rest) =
      (processF (stage34 s l).2 n (rest.drop 1)).map
        (fun out => relationsNewLine :: (stage34 s l).1 ++ out) := by
  simp [processF, h1, h2]

theorem processF_plain {l : String} (s : FilterState) (n : Nat) (rest : List String)
    (h1 : containsSub l complaintsMarker = false)
    (h2 : containsSub l relationsOld = false) :
    processF s (n + 1) (l :: rest) =
      (processF (stage34 s l).2 n rest).map (fun out => (stage34 s l).1 ++ out) := by
  simp [processF, h1, h2]

theorem findRule_append (t : String) (pre rs : List (String × String × String))
    (hpre : ∀ p ∈ pre, containsSub t p.1 = false ∨ containsSub t p.2.1 = false) :
    findRule t (pre ++ rs) = findRule t rs := by
  induction pre with
  | nil => rfl
  | cons p ps ih =>
    have hp := hpre p (by simp)
    rcases p with ⟨nm, op, cl⟩
    have hb : (containsSub t nm && containsSub t op) = false := by
      rcases hp with h | h <;> simp_all
    simp only [List.cons_append, findRule, hb, Bool.false_eq_true, if_false]
    exact ih (fun q hq => hpre q (List.mem_cons_of_mem _ hq))

/-- While the filter is inside a skip block waiting for `e`, any run of
lines that contain neither `e` nor a higher-precedence pattern (the
duplicate-guard marker or the header-replacement old substring) is
discarded without changing the state. -/
theorem process_skip_append (e : String) :
    ∀ (inners : List String) (s : FilterState) (rest : List String),
      s.current_section_end = some e →
      (∀ l ∈ inners, containsSub l e = false ∧ containsSub l complaintsMarker = false ∧
        containsSub l relationsOld = false) →
      process s (inners ++ rest) = process s rest := by
  intro inners
  induction inners with
  | nil => intro s rest _ _; rfl
  | cons l ls ih =>
    intro s rest hs hall
    have hl := hall l (by simp)
    have hls : ∀ x ∈ ls, containsSub x e = false ∧ containsSub x complaintsMarker = false ∧
        containsSub x relationsOld = false :=
      fun x hx => hall x (List.mem_cons_of_mem _ hx)
    rw [List.cons_append, process_plain s (ls ++ rest) hl.2.1 hl.2.2]
    cases ht : isTypeRemoval l with
    | true =>
      rw [stage34_type s ht]
      simpa using ih s rest hs hls
    | false =>
      rw [stage34_within s ht hs hl.1]
      simpa using ih s rest hs hls

theorem stage34_latch (s : FilterState) (l : String) :
    (stage34 s l).2.skip_next_complaints = s.skip_next_complaints := by
  cases h : isTypeRemoval l
  · cases hc : s.current_section_end with
    | none =>
      cases hf : findRule l skip_sections with
      | none => rw [stage34_keep s h hc hf]
      | some cl => rw [stage34_open s h hc hf]
    | some e =>
      cases he : containsSub l e
      · rw [stage34_within s h hc he]
      · rw [stage34_close s h hc he]
  · rw [stage34_type s h]

theorem newLine_no_marker : containsSub relationsNewLine complaintsMarker = false := by
  decide

theorem noSwallowedMarker_tail {x : String} {xs : List String}
    (h : noSwallowedMarker (x :: xs) = true) : noSwallowedMarker xs = true := by
  cases xs with
  | nil => rfl
  | cons b r =>
    simp only [noSwallowedMarker, Bool.and_eq_true] at h
    exact h.2

theorem noSwallowedMarker_head {a b : String} {rest : List String}
    (h : noSwallowedMarker (a :: b :: rest) = true)
    (hc : containsSub a complaintsMarker = false)
    (hh : containsSub a relationsOld = true) :
    containsSub b complaintsMarker = false := by
  simp only [noSwallowedMarker, Bool.and_eq_true, Bool.or_eq_true,
    Bool.not_eq_true', Bool.and_eq_false_iff, Bool.not_eq_false] at h
  rcases h.1 with h1 | h1
  · rcases h1 with h1 | h1
    · rw [h1] at hh; cases hh
    · rw [hc] at h1; simp at h1
  · exact h1

/-- The duplicate-guard flag is a latch: once examined marker lines start
being dropped, the marker never reappears; more precisely, the
marker-containing lines of the output are the first marker-containing line
of the input if the flag is still unset, and nothing if it is set —
provided no marker line is swallowed unexamined by the header branch. -/
theorem latch_filter : ∀ (n : Nat) (input : List String) (s : FilterState),
    input.length ≤ n → noSwallowedMarker input = true →
    (process s input).filter (fun l => containsSub l complaintsMarker) =
      if s.skip_next_complaints then []
      else (input.filter (fun l => containsSub l complaintsMarker)).take 1 := by
  intro n
  induction n with
  | zero =>
    intro input s h _
    have hnil : input = [] := List.length_eq_zero.mp (Nat.le_zero.mp h)
    subst hnil
    cases hf : s.skip_next_complaints <;> simp [process_nil, hf]
  | succ n ih =>
    intro input s h hsw
    match input with
    | [] => cases hf : s.skip_next_complaints <;> simp [process_nil, hf]
    | l :: rest =>
      have hr : rest.length ≤ n := by simp [List.length_cons] at h; omega
      have hswr : noSwallowedMarker rest = true := noSwallowedMarker_tail hsw
      cases hc : containsSub l complaintsMarker with
      | true =>
        cases hf : s.skip_next_complaints with
        | true =>
          rw [process_dup_drop s rest hc hf]
          rw [ih rest s hr hswr, hf]
          simp
        | false =>
          rw [process_dup_keep s rest hc hf, List.filter_cons]
          simp only [hc, if_true]
          rw [ih rest _ hr hswr]
          simp [hf, List.filter_cons, hc]
      | false =>
        cases hh : containsSub l relationsOld with
        | true =>
          rw [process_header s rest hc hh, List.filter_append, List.filter_cons]
          simp only [newLine_no_marker, Bool.false_eq_true, if_false]
          have h34 : List.filter (fun x => containsSub x complaintsMarker)
              (stage34 s l).1 = [] := by
            rcases stage34_fst s l with h34 | h34 <;> rw [h34] <;>
              simp [List.filter_cons, hc]
          rw [h34, List.nil_append]
          have hr1 : (rest.drop 1).length ≤ n := by simp [List.length_drop]; omega
          have hsw1 : noSwallowedMarker (rest.drop 1) = true := by
            cases rest with
            | nil => rfl
            | cons b r => exact noSwallowedMarker_tail hswr
          rw [ih (rest.drop 1) (stage34 s l).2 hr1 hsw1, stage34_latch s l]
          have hfil : List.filter (fun x => containsSub x complaintsMarker)
              (rest.drop 1) =
              List.filter (fun x => containsSub x complaintsMarker) rest := by
            cases rest with
            | nil => rfl
            | cons b r =>
              have hb : containsSub b complaintsMarker = false :=
                noSwallowedMarker_head hsw hc hh
              simp [List.filter_cons, hb]
          rw [hfil, List.filter_cons]
          simp [hc]
        | false =>
          rw [process_plain s rest hc hh, List.filter_append]
          have h34 : List.filter (fun x => containsSub x complaintsMarker)
              (stage34 s l).1 = [] := by
            rcases stage34_fst s l with h34 | h34 <;> rw [h34] <;>
              simp [List.filter_cons, hc]
          rw [h34, List.nil_append]
          rw [ih rest (stage34 s l).2 hr hswr, stage34_latch s l]
          rw [List.filter_cons]
          simp [hc]

end Lemmas

/-- Claim C1: the spec states that a line containing the
header-replacement old substring is replaced 1:1 by the new text at the
same position, no later input lines are affected, and the original header
line does not also appear in the output.  The code violates this: on a
header line followed by one ordinary line, the output contains the
replacement line AND the original header line, and the following line has
vanished (the `continue` at source line 83 binds to the inner `for` loop,
so the cursor advances twice and the header line falls through to the keep
branch). -/
theorem C1_header_replacement_bug :
    remove_system_health_components [relationsOld ++ "\n", "keep me\n"] =
      [relationsNewLine, relationsOld ++ "\n"] ∧
    remove_system_health_components [relationsOld ++ "\n", "keep me\n"] ≠
      [relationsNewLine, "keep me\n"] := by
  decide

/-- Claim C2: the spec states that exactly one action (keep, replace, or
drop) is applied per input line, no input line contributes more than one
output line, and no input line is consumed without an action.  The code
violates this on a header-replacement line: that single input line
contributes two output lines (the replacement and the original line), and
the following input line is consumed unseen although it matches no rule. -/
theorem C2_single_action_violation :
    remove_system_health_components
        ["AAA // Relations for Risk-Based Analysis & Process Monitoring Module BBB\n",
         "x = 1\n"] =
      [relationsNewLine,
       "AAA // Relations for Risk-Based Analysis & Process Monitoring Module BBB\n"] ∧
    "x = 1\n" ∉
      remove_system_health_components
        ["AAA // Relations for Risk-Based Analysis & Process Monitoring Module BBB\n",
         "x = 1\n"] := by
  decide

/-- Claim C3, counterexample: the claim states that with three lines
containing the duplicate-guard marker the third occurrence is kept.  On
the code, the output of three such lines is just the first line — the
flag set at the first occurrence is never reset, so the third occurrence
is dropped as well, and the output is not the two lines the claim
predicts. -/
theorem C3_third_occurrence_cex :
    remove_system_health_components
        ["complaints = pgTable(a, \x7b\n", "complaints = pgTable(a, \x7b\n",
         "complaints = pgTable(a, \x7b\n"] =
      ["complaints = pgTable(a, \x7b\n"] ∧
    remove_system_health_components
        ["complaints = pgTable(a, \x7b\n", "complaints = pgTable(a, \x7b\n",
         "complaints = pgTable(a, \x7b\n"] ≠
      ["complaints = pgTable(a, \x7b\n", "complaints = pgTable(a, \x7b\n"] := by
  decide

/-- Claim C3, amended: for every input in which no line containing the
duplicate-guard marker stands immediately after a header-replacement line
(such a marker line is never examined: the header branch advances the
cursor twice), the marker-containing lines of the output are exactly the
first marker-containing line of the input, if any.  The guard flag is set
at the first examined occurrence and never reset, so the second, the
third, and every later occurrence is dropped — in particular, with three
or more marker lines in the input the third is dropped, not kept. -/
theorem C3_latch_drops_later (input : List String)
    (hsw : noSwallowedMarker input = true) :
    (process initState input).filter (fun l => containsSub l complaintsMarker) =
      (input.filter (fun l => containsSub l complaintsMarker)).take 1 := by
  have h := latch_filter input.length input initState (Nat.le_refl _) hsw
  simpa using h

theorem C3_latch_drops_later_witness :
    (process initState
        ["const complaints = pgTable(complaintsA);\n",
         "other line\n",
         "const complaints = pgTable(complaintsB);\n",
         "const complaints = pgTable(complaintsC);\n"]).filter
        (fun l => containsSub l complaintsMarker) =
      ["const complaints = pgTable(complaintsA);\n"] :=
  Eq.trans (C3_latch_drops_later _ (by decide)) (by decide)

/-- Claim C4: the spec states that for every input the first line
containing the duplicate-guard marker is kept unmodified.  The code
violates this when the first marker line immediately follows a
header-replacement line: the header branch advances the cursor twice, so
the marker line is never examined and is absent from the output. -/
theorem C4_first_marker_swallowed :
    remove_system_health_components
        [relationsOld ++ "\n", "complaints = pgTable(complaintsTbl);\n"] =
      [relationsNewLine, relationsOld ++ "\n"] ∧
    "complaints = pgTable(complaintsTbl);\n" ∉
      remove_system_health_components
        [relationsOld ++ "\n", "complaints = pgTable(complaintsTbl);\n"] := by
  decide

/-- Claim C5, counterexample: the claim speaks of 17 hard-coded skip
rules, but the source's `skip_sections` list (lines 13-32) has 18
entries. -/
theorem C5_rule_count_cex :
    skip_sections.length = 18 ∧ skip_sections.length ≠ 17 := by
  decide

/-- Claim C5, amended: for each of the 18 hard-coded skip rules (marker,
block-open, block-close), a line outside any skipped block that contains
the rule's marker and block-open substrings — and is not claimed by a
higher-precedence check (duplicate guard, header replacement, type
removal, or an earlier rule of the list) — is dropped; subsequent lines
not claimed by the duplicate guard or header replacement are dropped up to
and including the first line containing the block-close substring
(provided that closing line is not itself claimed by a higher-precedence
check); and the lines after the closing line are processed exactly as if
the block had not been present. -/
theorem C5_skip_block_removal
    (pre post : List (String × String × String)) (nm op cl : String)
    (s : FilterState) (trigger closeLine : String) (inners suffix : List String)
    (hsplit : skip_sections = pre ++ (nm, op, cl) :: post)
    (hpre : ∀ p ∈ pre, containsSub trigger p.1 = false ∨ containsSub trigger p.2.1 = false)
    (hnm : containsSub trigger nm = true)
    (hop : containsSub trigger op = true)
    (hs : s.current_section_end = none)
    (ht1 : containsSub trigger complaintsMarker = false)
    (ht2 : containsSub trigger relationsOld = false)
    (ht3 : isTypeRemoval trigger = false)
    (hin : ∀ l ∈ inners, containsSub l cl = false ∧ containsSub l complaintsMarker = false ∧
      containsSub l relationsOld = false)
    (hc1 : containsSub closeLine cl = true)
    (hc2 : containsSub closeLine complaintsMarker = false)
    (hc3 : containsSub closeLine relationsOld = false)
    (hc4 : isTypeRemoval closeLine = false) :
    process s (trigger :: (inners ++ closeLine :: suffix)) = process s suffix := by
  have hfr : findRule trigger skip_sections = some cl := by
    rw [hsplit, findRule_append trigger pre _ hpre]
    simp [findRule, hnm, hop]
  rw [process_plain s _ ht1 ht2, stage34_open s ht3 hs hfr]
  simp only [List.nil_append]
  rw [process_skip_append cl inners _ (closeLine :: suffix) rfl hin]
  rw [process_plain _ suffix hc2 hc3, stage34_close _ hc4 rfl hc1]
  simp only [List.nil_append]
  rw [state_eta s hs]

theorem C5_skip_block_removal_witness :
    process initState
        ["export const processImpactLevelEnum = pgEnum(pil, [\n",
         "  low,\n", "  high\n", "]);\n", "tail\n"] = ["tail\n"] :=
  Eq.trans
    (C5_skip_block_removal [] _ "processImpactLevelEnum" "[" ");" initState
      "export const processImpactLevelEnum = pgEnum(pil, [\n" "]);\n"
      ["  low,\n", "  high\n"] ["tail\n"] rfl (by simp) (by decide) (by decide)
      rfl (by decide) (by decide) (by decide) (by decide) (by decide)
      (by decide) (by decide) (by decide))
    (by decide)

/-- Claim C6: a line containing any of the 17 type-removal patterns — and
not claimed by one of the two higher-precedence checks (duplicate guard,
header replacement) — is dropped in every filter state, in particular both
inside an active skip block and immediately after a block-close line, and
the state is unchanged. -/
theorem C6_type_removal_any_state (s : FilterState) (l : String) (rest : List String)
    (h1 : isTypeRemoval l = true)
    (h2 : containsSub l complaintsMarker = false)
    (h3 : containsSub l relationsOld = false) :
    process s (l :: rest) = process s rest := by
  rw [process_plain s rest h2 h3, stage34_type s h1]
  simp

theorem C6_type_removal_any_state_witness :
    process ⟨false, some "\x7d);"⟩
        ["export type Process = typeof processes.inferSelect;\n", "next\n"] =
      process ⟨false, some "\x7d);"⟩ ["next\n"] :=
  C6_type_removal_any_state _ _ _ (by decide) (by decide) (by decide)

/-- Claim C7: on an input in which no line matches any rule (duplicate
guard, header replacement, type removal, or skip-rule marker plus
block-open), the filter is the identity. -/
theorem C7_identity_on_unmatched (input : List String)
    (h : ∀ l ∈ input, matchesAnyRule l = false) :
    process initState input = input := by
  have aux : ∀ (xs : List String) (s : FilterState), s.current_section_end = none →
      (∀ l ∈ xs, matchesAnyRule l = false) → process s xs = xs := by
    intro xs
    induction xs with
    | nil => intro s _ _; rfl
    | cons l ls ih =>
      intro s hs hall
      have hl := hall l (by simp)
      simp only [matchesAnyRule, Bool.or_eq_false_iff] at hl
      obtain ⟨⟨⟨hl1, hl2⟩, hl3⟩, hl4⟩ := hl
      have hl4n : findRule l skip_sections = none := by
        cases hfr : findRule l skip_sections with
        | none => rfl
        | some cl => rw [hfr] at hl4; simp at hl4
      rw [process_plain s ls hl1 hl2, stage34_keep s hl3 hs hl4n]
      rw [ih s hs (fun x hx => hall x (List.mem_cons_of_mem _ hx))]
      rfl
  exact aux input initState rfl h

theorem C7_identity_on_unmatched_witness :
    process initState ["const a = 1;\n", "const b = 2;\n"] =
      ["const a = 1;\n", "const b = 2;\n"] :=
  C7_identity_on_unmatched _ (by decide)

/-- Claim C8: once inside a skip block whose recorded block-close substring
never occurs in the remaining lines (none of which is claimed by the
higher-precedence duplicate-guard or header-replacement checks), the
filter consumes the whole remainder: the output is empty.  `process` is a
total function, so no error is raised. -/
theorem C8_unterminated_block_absorbs (e : String) (s : FilterState) (input : List String)
    (hs : s.current_section_end = some e)
    (hall : ∀ l ∈ input, containsSub l e = false ∧ containsSub l complaintsMarker = false ∧
      containsSub l relationsOld = false) :
    process s input = [] := by
  have h := process_skip_append e input s [] hs hall
  simpa using h

theorem C8_unterminated_block_absorbs_witness :
    process ⟨false, some "\x7d);"⟩ ["id: serial,\n", "name: text\n"] = [] :=
  C8_unterminated_block_absorbs _ _ _ rfl (by decide)

theorem C9_aux : ∀ (n : Nat) (input : List String) (s : FilterState), input.length ≤ n →
    List.Sublist ((process s input).filter (fun l => l != relationsNewLine)) input := by
  intro n
  induction n with
  | zero =>
    intro input s h
    have hnil : input = [] := List.length_eq_zero.mp (Nat.le_zero.mp h)
    subst hnil
    simp [process_nil]
  | succ n ih =>
    intro input s h
    match input with
    | [] => simp [process_nil]
    | l :: rest =>
      have hr : rest.length ≤ n := by simp [List.length_cons] at h; omega
      have hr1 : (rest.drop 1).length ≤ n := by simp [List.length_drop]; omega
      cases hc : containsSub l complaintsMarker with
      | true =>
        cases hf : s.skip_next_complaints with
        | true =>
          rw [process_dup_drop s rest hc hf]
          exact (ih rest s hr).cons l
        | false =>
          rw [process_dup_keep s rest hc hf, List.filter_cons]
          by_cases hl : (l != relationsNewLine) = true
          · simp only [hl, if_true]
            exact (ih rest _ hr).cons₂ l
          · simp only [Bool.not_eq_true] at hl
            simp only [hl, Bool.false_eq_true, if_false]
            exact (ih rest _ hr).cons l
      | false =>
        cases hh : containsSub l relationsOld with
        | true =>
          rw [process_header s rest hc hh, List.filter_append, List.filter_cons]
          have hnew : (relationsNewLine != relationsNewLine) = false := by simp
          simp only [hnew, Bool.false_eq_true, if_false]
          have hrec := (ih (rest.drop 1) (stage34 s l).2 hr1).trans (List.drop_sublist 1 rest)
          rcases stage34_fst s l with h34 | h34 <;> rw [h34]
          · simpa using hrec.cons l
          · rw [List.filter_cons]
            by_cases hl : (l != relationsNewLine) = true
            · simp only [hl, if_true]
              simpa using hrec.cons₂ l
            · simp only [Bool.not_eq_true] at hl
              simp only [hl, Bool.false_eq_true, if_false]
              simpa using hrec.cons l
        | false =>
          rw [process_plain s rest hc hh, List.filter_append]
          have hrec := ih rest (stage34 s l).2 hr
          rcases stage34_fst s l with h34 | h34 <;> rw [h34]
          · simpa using hrec.cons l
          · rw [List.filter_cons]
            by_cases hl : (l != relationsNewLine) = true
            · simp only [hl, if_true]
              simpa using hrec.cons₂ l
            · simp only [Bool.not_eq_true] at hl
              simp only [hl, Bool.false_eq_true, if_false]
              simpa using hrec.cons l

/-- Claim C9: every output line is either a line of the input or the fixed
replacement text (with newline), and after removing replacement lines the
output is a sublist of the input — the kept input lines appear in their
original relative order. -/
theorem C9_output_provenance (s : FilterState) (input : List String) :
    (process s input).all
        (fun l => l == relationsNewLine || decide (l ∈ input)) = true ∧
    List.Sublist ((process s input).filter (fun l => l != relationsNewLine)) input := by
  have hsub := C9_aux input.length input s (Nat.le_refl _)
  refine ⟨?_, hsub⟩
  rw [List.all_eq_true]
  intro l hl
  by_cases h : l = relationsNewLine
  · simp [h]
  · have hb : (l != relationsNewLine) = true := bne_iff_ne.mpr h
    have hmem : l ∈ (process s input).filter (fun x => x != relationsNewLine) :=
      List.mem_filter.mpr ⟨hl, hb⟩
    have hin : l ∈ input := hsub.subset hmem
    simp [hin]

theorem processF_of_le : ∀ (n : Nat) (input : List String) (s : FilterState),
    input.length ≤ n → processF s n input = some (process s input) := by
  intro n
  induction n with
  | zero =>
    intro input s h
    have hnil : input = [] := List.length_eq_zero.mp (Nat.le_zero.mp h)
    subst hnil
    rfl
  | succ n ih =>
    intro input s h
    match input with
    | [] => rfl
    | l :: rest =>
      have hr : rest.length ≤ n := by simp [List.length_cons] at h; omega
      have hr1 : (rest.drop 1).length ≤ n := by simp [List.length_drop]; omega
      cases hc : containsSub l complaintsMarker with
      | true =>
        cases hf : s.skip_next_complaints with
        | true =>
          rw [process_dup_drop s rest hc hf, processF_dup_drop s n rest hc hf]
          exact ih rest s hr
        | false =>
          rw [process_dup_keep s rest hc hf, processF_dup_keep s n rest hc hf]
          rw [ih rest _ hr]
          rfl
      | false =>
        cases hh : containsSub l relationsOld with
        | true =>
          rw [process_header s rest hc hh, processF_header s n rest hc hh]
          rw [ih (rest.drop 1) _ hr1]
          rfl
        | false =>
          rw [process_plain s rest hc hh, processF_plain s n rest hc hh]
          rw [ih rest _ hr]
          rfl

/-- Claim C10: the loop terminates on every finite input, within at most
one iteration per input line (the cursor advances by at least one each
time round): running the fuel-indexed loop with fuel equal to the number
of input lines never runs out of fuel and computes the same total
function. -/
theorem C10_fuel_terminates (s : FilterState) (input : List String) :
    processF s input.length input = some (process s input) :=
  processF_of_le input.length input s (Nat.le_refl _)

end RemoveSystemHealth
